import Mathlib

/-!
Verification development for the web-tool repository.

The Python modules `library/html_util.py`, `library/text_util.py` and
`library/unicode_util.py` are embedded shallowly below.  Python strings are
sequences of Unicode code points; they are modelled by Lean `String` values,
with the character-level work done on `String.data : List Char` (a faithful
model of a Python `str`).  Machine-independent notes on the embedding:

* Python `sorted(xs, key=f, reverse=True)` is specified by CPython as a
  stable sort.  A stable sort for a fixed total preorder is unique, so it is
  modelled here by a stable insertion sort (`stableSort`) with the comparator
  "key not lexicographically smaller".
* `int(distance * 1.2)` in `sort_favicon_links` is computed by CPython with
  binary doubles.  It is modelled exactly as `distance * 6 / 5` (floor), which
  agrees with the double computation for every distance appearing in this
  development (and for all distances of realistic image sizes; deviations
  require areas far beyond 2^40 pixels).
* `standard_dist < 0.4` and `word_pct() > 0.5` compare real numbers; the
  model works with exact rational arithmetic, which agrees with the double
  computation on all inputs used here (the values are far from the
  thresholds).  Internally the comparisons are carried out on cleared
  denominators, with bridging lemmas relating them to the rational values.
* External collaborators (the `unicodedata` category table, the NLTK/WordNet
  lexicon, the HTTP fetch, `urllib.parse` and the YAML cache files) are
  modelled as explicit parameters or as small functions marked as modelled
  collaborators in their doc comments.
-/

set_option maxRecDepth 16000

namespace WebTool

/-! ### Python string primitives -/

/-- Whitespace set of Python `str.strip` / `str.split` (the code points for
which Python `str.isspace` holds). -/
def isPyWs (c : Char) : Bool :=
  (9 ≤ c.toNat && c.toNat ≤ 13) || (28 ≤ c.toNat && c.toNat ≤ 31) ||
  c.toNat == 32 || c.toNat == 133 || c.toNat == 160 ||
  c.toNat == 5760 || (8192 ≤ c.toNat && c.toNat ≤ 8202) ||
  c.toNat == 8232 || c.toNat == 8233 || c.toNat == 8239 ||
  c.toNat == 8287 || c.toNat == 12288

/-- Python `s.strip()` (default whitespace stripping on both ends). -/
def pyStrip (s : String) : String :=
  String.mk (((s.data.dropWhile isPyWs).reverse.dropWhile isPyWs).reverse)

/-- Python `s.rstrip()` (default whitespace stripping on the right). -/
def pyRstrip (s : String) : String :=
  String.mk ((s.data.reverse.dropWhile isPyWs).reverse)

/-- Python `s.startswith(t)`. -/
def pyStartsWith (s t : String) : Bool :=
  t.data.isPrefixOf s.data

/-- Helper for `pyContainsSub`: does `pat` occur in `hay` (as a contiguous
run)? -/
def listContainsSub (pat : List Char) : List Char → Bool
  | [] => pat.isEmpty
  | c :: rest => pat.isPrefixOf (c :: rest) || listContainsSub pat rest

/-- Python `t in s` for strings (substring containment). -/
def pyContainsSub (s t : String) : Bool :=
  listContainsSub t.data s.data

/-- Helper for `pyReplace`: left-to-right replacement of non-overlapping
occurrences, exactly as Python `str.replace`.  The first argument is
structural-recursion fuel; any fuel of at least the list length gives the
replacement (a match consumes at least one character per fuel unit). -/
def replaceAux (pat rep : List Char) : Nat → List Char → List Char
  | 0, l => l
  | _ + 1, [] => []
  | fuel + 1, c :: rest =>
    if pat.isPrefixOf (c :: rest) ∧ pat ≠ [] then
      rep ++ replaceAux pat rep fuel (List.drop (pat.length - 1) rest)
    else
      c :: replaceAux pat rep fuel rest

/-- Python `s.replace(pat, rep)` for a non-empty `pat` (replaces all
non-overlapping occurrences from the left). -/
def pyReplace (s pat rep : String) : String :=
  String.mk (replaceAux pat.data rep.data s.data.length s.data)

/-- Helper for `pySplitOn`: split a character list at every occurrence of the
non-empty separator, as Python `str.split(sep)`.  Fuel as in `replaceAux`. -/
def splitOnAux (sep : List Char) : Nat → List Char → List Char → List (List Char)
  | 0, l, acc => [(acc.reverse ++ l)]
  | _ + 1, [], acc => [acc.reverse]
  | fuel + 1, c :: rest, acc =>
    if sep.isPrefixOf (c :: rest) ∧ sep ≠ [] then
      acc.reverse :: splitOnAux sep fuel (List.drop (sep.length - 1) rest) []
    else
      splitOnAux sep fuel rest (c :: acc)

/-- Python `s.split(sep)` for a non-empty string separator. -/
def pySplitOn (s sep : String) : List String :=
  (splitOnAux sep.data s.data.length s.data []).map String.mk

/-- Helper for `pySplitWs`: split on runs of whitespace, dropping empty
pieces, as Python `str.split()` with no argument. -/
def splitWsAux : List Char → List Char → List (List Char)
  | [], acc => if acc.isEmpty then [] else [acc.reverse]
  | c :: rest, acc =>
    if isPyWs c then
      if acc.isEmpty then splitWsAux rest []
      else acc.reverse :: splitWsAux rest []
    else
      splitWsAux rest (c :: acc)

/-- Python `s.split()` (split on whitespace runs, no empty tokens). -/
def pySplitWs (s : String) : List String :=
  (splitWsAux s.data []).map String.mk

/-- Line-boundary set of Python `str.splitlines`. -/
def isPyLineBreak (c : Char) : Bool :=
  c.toNat == 10 || c.toNat == 13 || c.toNat == 11 || c.toNat == 12 ||
  (28 ≤ c.toNat && c.toNat ≤ 30) || c.toNat == 133 ||
  c.toNat == 8232 || c.toNat == 8233

/-- Helper for `pySplitLines`: accumulate the current line, treating the
two-character boundary `\r\n` as a single boundary, as Python
`str.splitlines()`.  Fuel as in `replaceAux`. -/
def splitLinesAux : Nat → List Char → List Char → List (List Char)
  | 0, l, acc => if (acc.reverse ++ l).isEmpty then [] else [acc.reverse ++ l]
  | _ + 1, [], acc => if acc.isEmpty then [] else [acc.reverse]
  | fuel + 1, c :: rest, acc =>
    if isPyLineBreak c then
      if c.toNat == 13 then
        match rest with
        | d :: rest2 =>
          if d.toNat == 10 then acc.reverse :: splitLinesAux fuel rest2 []
          else acc.reverse :: splitLinesAux fuel (d :: rest2) []
        | [] => acc.reverse :: splitLinesAux fuel [] []
      else
        acc.reverse :: splitLinesAux fuel rest []
    else
      splitLinesAux fuel rest (c :: acc)

/-- Python `s.splitlines()`. -/
def pySplitLines (s : String) : List String :=
  (splitLinesAux s.data.length s.data []).map String.mk

/-- Python string join with a separator, `sep.join(parts)`, specialised to the
"."-joins used by the favicon cache. -/
def pyJoinDot : List String → String
  | [] => ""
  | [a] => a
  | a :: b :: rest => a ++ "." ++ pyJoinDot (b :: rest)

/-- Lexicographic comparison of code-point sequences: the order Python uses
for `str < str`. -/
def lexLt : List Char → List Char → Bool
  | [], [] => false
  | [], _ :: _ => true
  | _ :: _, [] => false
  | a :: as, b :: bs =>
    if a < b then true
    else if b < a then false
    else lexLt as bs

/-- Python `s < t` on strings. -/
def pyStrLt (s t : String) : Bool :=
  lexLt s.data t.data

/-! ### Decimal formatting (Python `format(n, "0Nd")`) -/

/-- Decimal digit character for `d < 10` (larger arguments, which never occur,
clamp to the last digit). -/
def digitChar : Nat → Char
  | 0 => '0'
  | 1 => '1'
  | 2 => '2'
  | 3 => '3'
  | 4 => '4'
  | 5 => '5'
  | 6 => '6'
  | 7 => '7'
  | 8 => '8'
  | _ => '9'

/-- Decimal digit characters, most significant first; structural-recursion
fuel first (any fuel of at least the digit count works). -/
def natDigitsAux : Nat → Nat → List Char
  | 0, n => [digitChar n]
  | fuel + 1, n =>
    if n < 10 then [digitChar n]
    else natDigitsAux fuel (n / 10) ++ [digitChar (n % 10)]

/-- Decimal digit characters of `n`, most significant first. -/
def natDigits (n : Nat) : List Char :=
  natDigitsAux n n

/-- Numeric value of a digit-character list (used to reason about the padded
sort keys). -/
def digitsVal (l : List Char) : Nat :=
  l.foldl (fun a c => 10 * a + (c.toNat - 48)) 0

/-- Python `f"{n:0wd}"` for a non-negative `n`: decimal digits left-padded
with zeros to width `w` (wider numbers are printed in full). -/
def pyFormat0d (w n : Nat) : String :=
  let ds := natDigits n
  String.mk (List.replicate (w - ds.length) '0' ++ ds)

/-! ### A stable sort (the semantics of Python `sorted`) -/

/-- Insert `a` into a list sorted by the total preorder `le`, after every
element that may precede it (this is the stable position). -/
def stableInsert (le : α → α → Bool) (a : α) : List α → List α
  | [] => [a]
  | b :: t => if le b a then b :: stableInsert le a t else a :: b :: t

/-- Stable sort by the total preorder `le`: the unique output of any stable
sorting algorithm, hence the model of Python `sorted`. -/
def stableSort (le : α → α → Bool) (l : List α) : List α :=
  l.foldl (fun acc a => stableInsert le a acc) []

/-! ### html_util.py: favicon data model -/

/-- Python truthiness of an optional string (`None` and `""` are falsy). -/
def truthyStr : Option String → Bool
  | none => false
  | some s => decide (s ≠ "")

/-- The normalized `rel` attribute value of a `<link>` element: fields 60-65
and the `rel` handling of `get_favicon_links` keep it as a list whose entries
may be `None`. -/
abbrev RelAttr := List (Option String)

/-- `RelLink` from html_util.py lines 60-71.  `width`/`height` are annotated
`int = 0` in the source but are checked against `None` by the sort key, so
they are modelled as `Option Nat` with default `some 0`.  `_validated` is
modelled as `validated`. -/
structure RelLink where
  href : String
  cache_key : Option String := none
  rel : Option RelAttr := none
  sizes : Option String := none
  resolved_href : Option String := none
  height : Option Nat := some 0
  width : Option Nat := some 0
  image_type : Option String := none
  validated : Bool := false
deriving DecidableEq

/-- `RelLink.is_valid` (html_util.py lines 98-100). -/
def RelLink.is_valid (l : RelLink) : Bool :=
  decide (l.resolved_href ≠ none) && decide (l.image_type ≠ none)

def FAVICON_WIDTH : Nat := 20

def ICO_TO_PNG_PATH : String := "convert-ico-to-png"

def SVG_TO_PNG_PATH : String := "convert-svg-to-png"

def FAVICON_REL : List String := ["icon", "apple-touch-icon", "shortcut icon"]

def COMMON_FAVICON_FILES : List String :=
  ["favicon.png", "favicon.jpg", "favicon.gif", "favicon.ico", "favicon.svg"]

/-! ### html_util.py: URL helpers (modelled stdlib collaborators) -/

/-- Result of `urllib.parse.urlparse` restricted to the components this code
reads (scheme, netloc, path). -/
structure ParsedUrl where
  scheme : String
  netloc : String
  path : String
deriving DecidableEq

/-- Modelled collaborator: `urllib.parse.urlparse`, restricted to URLs of the
shapes used here (`scheme://netloc/path...` and plain relative strings
without a scheme; no params, query or fragment). -/
def pyUrlparse (url : String) : ParsedUrl :=
  match pySplitOn url "://" with
  | [_noScheme] => { scheme := "", netloc := "", path := url }
  | s :: rest =>
    let r := String.intercalate "://" rest
    match pySplitOn r "/" with
    | [] => { scheme := s, netloc := r, path := "" }
    | host :: [] => { scheme := s, netloc := host, path := "" }
    | host :: p :: ps =>
      { scheme := s, netloc := host,
        path := "/" ++ String.intercalate "/" (p :: ps) }
  | [] => { scheme := "", netloc := "", path := url }

/-- Modelled collaborator: `urllib.parse.urlunparse((scheme, netloc, "", "",
"", ""))` as used to rebuild the `scheme://netloc` host URL. -/
def pyUrlunparseHost (p : ParsedUrl) : String :=
  (if p.scheme = "" then "" else p.scheme ++ ":") ++
  (if p.netloc = "" then "" else "//" ++ p.netloc)

/-- Modelled collaborator: `urllib.parse.urljoin`, restricted to joining a
root-relative or bare relative reference onto an absolute base URL (the only
uses in this code). -/
def pyUrljoin (base rel : String) : String :=
  let p := pyUrlparse base
  if pyStartsWith rel "/" then
    p.scheme ++ "://" ++ p.netloc ++ rel
  else
    let segs :=
      if pyStartsWith p.path "/" then pySplitOn (String.mk p.path.data.tail) "/"
      else pySplitOn p.path "/"
    p.scheme ++ "://" ++ p.netloc ++ "/" ++
      String.intercalate "/" (segs.dropLast ++ [rel])

/-- `url_util.make_absolute_urls` (url_util.py lines 328-336). -/
def make_absolute_urls (page_url linked_url : String) : String :=
  if pyStartsWith linked_url "http://" || pyStartsWith linked_url "https://" then
    linked_url
  else
    pyUrljoin page_url linked_url

/-! ### html_util.py: the tiered favicon cache -/

/-- The three YAML cache mappings, read through `_load_yaml_with_cache`.  Each
backing store is modelled as the key-to-URL mapping it parses to. -/
structure CacheTiers where
  overrides : String → Option String
  defaults : String → Option String
  discovered : String → Option String

/-- Search key construction of `get_favicon_cache` (html_util.py lines
242-258): `netloc/first-path-segment` when a first path segment exists, then
dotted-host suffixes down to two labels. -/
def netlocSuffixes : List String → List String
  | [] => []
  | [_] => []
  | t :: u :: rest => pyJoinDot (t :: u :: rest) :: netlocSuffixes (u :: rest)

/-- The ordered search paths `get_favicon_cache` builds for a page URL. -/
def searchPaths (page_url : String) : List String :=
  let parsed := pyUrlparse page_url
  let p0 :=
    if pyStartsWith parsed.path "/" then String.mk parsed.path.data.tail
    else parsed.path
  let base :=
    if p0.length > 0 then
      [parsed.netloc ++ "/" ++ ((pySplitOn p0 "/").headD "")]
    else []
  base ++ netlocSuffixes (pySplitOn parsed.netloc ".")

/-- The pre-validated `RelLink` built for a cache hit (html_util.py lines
267-274). -/
def mkCachedRelLink (favicon s : String) : RelLink :=
  { href := favicon, cache_key := some s, resolved_href := some favicon,
    image_type := some "image/png", validated := true }

/-- One tier of the cache search: first search path whose value is truthy
wins (the walrus `if favicon := cache_dict.get(s)` skips empty values). -/
def lookupTier (tier : String → Option String) : List String → Option RelLink
  | [] => none
  | s :: rest =>
    match tier s with
    | some fav => if fav = "" then lookupTier tier rest else some (mkCachedRelLink fav s)
    | none => lookupTier tier rest

/-- `get_favicon_cache` (html_util.py lines 225-276): overrides, then
defaults, then discovered, each over all search paths in order. -/
def get_favicon_cache (caches : CacheTiers) (page_url : String) : Option RelLink :=
  let paths := searchPaths page_url
  match lookupTier caches.overrides paths with
  | some r => some r
  | none =>
    match lookupTier caches.defaults paths with
    | some r => some r
    | none => lookupTier caches.discovered paths

/-- `add_favicon_to_cache` (html_util.py lines 279-300), as the pure update
it performs on the discovered-tier mapping.  Note the source uses
`cache_key.replace("www.", "")`, which removes every occurrence. -/
def add_favicon_to_cache (discovered : String → Option String)
    (cache_key favicon_link : String) : String → Option String :=
  let key :=
    if pyStartsWith cache_key "www." then pyReplace cache_key "www." ""
    else cache_key
  fun s => if s = key then some favicon_link else discovered s

/-! ### html_util.py: favicon discovery -/

/-- The `rel` attribute of a `<link>` as BeautifulSoup returns it: absent, a
single string, or a list of strings. -/
inductive RelVal
  | noneV
  | strV (s : String)
  | listV (ls : List String)
deriving DecidableEq

/-- Normalization `if not isinstance(rel, list): rel = [rel]` of
`get_favicon_links`. -/
def relAsList : RelVal → RelAttr
  | .noneV => [none]
  | .strV s => [some s]
  | .listV ls => ls.map some

/-- One `<link>` element found in `<head>`: the attributes
`get_favicon_links` reads. -/
structure HeadLink where
  href : Option String := none
  sizes : Option String := none
  rel : RelVal := .noneV

/-- Does the inner `for r in rel` loop of `get_favicon_links` hit a favicon
relation (`r in FAVICON_REL`, never true for `None`)? -/
def relMatches (rl : RelAttr) : Bool :=
  rl.any fun r =>
    match r with
    | some s => FAVICON_REL.contains s
    | none => false

/-- External collaborators of favicon discovery: the cache files, the Flask
`request.host`, and the `img_util` conversion probes (network calls modelled
as oracles telling whether `convert_ico`/`convert_svg` return bytes). -/
structure FaviconEnv where
  caches : CacheTiers
  request_host : String
  convert_ico_ok : String → Bool
  convert_svg_ok : String → Bool

/-- Modelled collaborator: `urllib.parse.urlencode({"url": href})`.  Only the
shape `url=<quoted href>` matters here; the percent-quoting itself is kept
abstract as a code-point-preserving injection is not needed by any claim. -/
def pyUrlencodeUrl (href : String) : String := "url=" ++ href

/-- The `<head>` scan of `get_favicon_links` (html_util.py lines 330-359).
Returns the accumulated links, the `seen` set, and whether the scan returned
early (the `include != "all"` fast path). -/
def headScan (page_url : String) (inc : Option String) :
    List HeadLink → List RelLink → List String → List RelLink × List String × Bool
  | [], links, seen => (links, seen, false)
  | l :: rest, links, seen =>
    match l.href with
    | none => headScan page_url inc rest links seen
    | some h =>
      if h = "" then headScan page_url inc rest links seen
      else
        let href := make_absolute_urls page_url h
        if seen.contains href then headScan page_url inc rest links seen
        else
          let seen' := seen ++ [href]
          if relMatches (relAsList l.rel) then
            let links' := links ++
              [{ href := href, rel := some (relAsList l.rel), sizes := l.sizes }]
            if inc = some "all" then headScan page_url inc rest links' seen'
            else (links', seen', true)
          else headScan page_url inc rest links seen'

/-- The conventional-file fallback of `get_favicon_links` (html_util.py lines
361-375). -/
def commonScan (page_host : String) (inc : Option String) :
    List String → List RelLink → List String → List RelLink × List String × Bool
  | [], links, seen => (links, seen, false)
  | f :: rest, links, seen =>
    let href := make_absolute_urls page_host f
    if seen.contains href then commonScan page_host inc rest links seen
    else
      let seen' := seen ++ [href]
      let links' := links ++ [{ href := href }]
      if inc = some "all" then commonScan page_host inc rest links' seen'
      else (links', seen', true)

/-- `has_non_ico_svg` (html_util.py lines 378-382): some candidate with a
truthy `image_type` that is neither ICO nor SVG. -/
def has_non_ico_svg (links : List RelLink) : Bool :=
  links.any fun l =>
    truthyStr l.image_type &&
      !(l.image_type == some "image/ico" || l.image_type == some "image/svg")

/-- One iteration of the conversion-candidate loop of `get_favicon_links`
(html_util.py lines 387-412).  A conversion link is appended only when the
conversion probe succeeds and the freshly built `RelLink` already reports
`is_valid()` (html_util.py lines 399 and 411). -/
def conversionStep (env : FaviconEnv) (acc : List RelLink) (l : RelLink) :
    List RelLink :=
  if l.image_type == some "image/ico" then
    if env.convert_ico_ok l.href then
      let conv : RelLink :=
        { href := "http://" ++ env.request_host ++ "/" ++ ICO_TO_PNG_PATH ++
            "?" ++ pyUrlencodeUrl l.href,
          rel := l.rel, sizes := l.sizes }
      if conv.is_valid then acc ++ [conv] else acc
    else acc
  else if l.image_type == some "image/svg" then
    if env.convert_svg_ok l.href then
      let conv : RelLink :=
        { href := "http://" ++ env.request_host ++ "/" ++ SVG_TO_PNG_PATH ++
            "?" ++ pyUrlencodeUrl l.href,
          rel := l.rel, sizes := l.sizes }
      if conv.is_valid then acc ++ [conv] else acc
    else acc
  else acc

/-- The `conversion_links` accumulated by `get_favicon_links` (html_util.py
lines 387-415). -/
def conversionLinks (env : FaviconEnv) (links : List RelLink) : List RelLink :=
  links.foldl (conversionStep env) []

/-- The post-cache part of `get_favicon_links`: head scan, conventional-file
fallback, then the conversion pass. -/
def faviconScan (env : FaviconEnv) (page_url : String)
    (soup : Option (Option (List HeadLink))) (inc : Option String)
    (links : List RelLink) (seen : List String) : List RelLink :=
  match soup with
  | none => links
  | some headFind =>
    let afterHead :=
      match headFind with
      | some headLinks => headScan page_url inc headLinks links seen
      | none => (links, seen, false)
    if afterHead.2.2 then afterHead.1
    else
      let page_host := pyUrlunparseHost (pyUrlparse page_url)
      let afterCommon :=
        commonScan page_host inc COMMON_FAVICON_FILES afterHead.1 afterHead.2.1
      if afterCommon.2.2 then afterCommon.1
      else
        let links' := afterCommon.1
        if has_non_ico_svg links' then links'
        else links' ++ conversionLinks env links'

/-- `get_favicon_links` (html_util.py lines 303-418).  `soup` is `none` when
the parsed document is falsy; otherwise it carries the result of
`soup.find("head")` as an optional list of `<link>` elements. -/
def get_favicon_links (env : FaviconEnv) (page_url : String)
    (soup : Option (Option (List HeadLink))) (inc : Option String) : List RelLink :=
  match get_favicon_cache env.caches page_url with
  | some cached =>
    if inc = some "all" then
      faviconScan env page_url soup inc [cached] [cached.href]
    else [cached]
  | none => faviconScan env page_url soup inc [] []

/-! ### html_util.py: ranking -/

/-- The group component of the composite sort key (html_util.py lines
500-530). -/
def keyGroup (x : RelLink) : Nat :=
  if truthyStr x.cache_key then 999
  else if pyContainsSub x.href SVG_TO_PNG_PATH then 100
  else if pyContainsSub x.href ICO_TO_PNG_PATH then 200
  else if x.image_type == some "image/svg" then 300
  else if x.image_type == some "image/ico" then 400
  else 500

/-- The distance component of the composite sort key (html_util.py lines
532-542).  `int(distance * 1.2)` is modelled as `distance * 6 / 5`; see the
header note on floats. -/
def keyDistance (x : RelLink) (target_area : Nat) : Nat :=
  match x.width, x.height with
  | some w, some h =>
    let area := w * h
    let distance := if area ≥ target_area then area - target_area else target_area - area
    if area < target_area then distance * 6 / 5 else distance
  | _, _ => 999999

/-- `key_fn` (html_util.py lines 513-546): the composite string key
`f"{group_key:03d}_{distance:09d}"`. -/
def key_fn (target_area : Nat) (x : RelLink) : String :=
  pyFormat0d 3 (keyGroup x) ++ "_" ++ pyFormat0d 9 (keyDistance x target_area)

/-- The comparator of `sorted(favicons, key=key_fn, reverse=True)`: `x` may
precede `y` exactly when its key is not smaller. -/
def faviconLe (target_area : Nat) (x y : RelLink) : Bool :=
  !(pyStrLt (key_fn target_area x) (key_fn target_area y))

/-- `sort_favicon_links` (html_util.py lines 464-549). -/
def sort_favicon_links (favicons : List RelLink) (favicon_width : Nat)
    (inc : Option String) : List RelLink :=
  match favicons with
  | [] => []
  | f :: _ =>
    if truthyStr f.cache_key ∧ inc ≠ some "all" then favicons.take 1
    else
      let target_area := favicon_width * favicon_width
      stableSort (faviconLe target_area) favicons

/-! ### html_util.py: lazy validation -/

/-- Outcome of `url_util.get_url` inside `RelLink.validate`: either the try
block raises, or it yields a resolved URL (possibly `None`), an optional
image size, and a sniffed media type. -/
inductive FetchOutcome
  | raise
  | ok (resolved : Option String) (size : Option (Nat × Nat)) (mtype : Option String)

/-- `RelLink.validate` (html_util.py lines 73-96) as one step over a fetch
oracle.  Returns the boolean result, the updated link, and the list of URLs
fetched (empty when the memoized `_validated` flag short-circuits). -/
def RelLink.validateStep (fetch : String → FetchOutcome) (l : RelLink) :
    Bool × RelLink × List String :=
  if l.validated then (l.is_valid, l, [])
  else
    let l1 := { l with validated := true }
    match fetch l.href with
    | .raise => (false, l1, [l.href])
    | .ok resolved size mtype =>
      let l2 := { l1 with resolved_href := resolved }
      match size with
      | some (w, h) =>
        (true, { l2 with image_type := mtype, width := some w, height := some h },
          [l.href])
      | none => (false, l2, [l.href])

/-- Loop of `validate_top_candidates` (html_util.py lines 434-450), threading
the list of fetched URLs. -/
def validateLoop (fetch : String → FetchOutcome) (max_count : Nat) :
    List RelLink → List RelLink → List String → List RelLink × List String
  | [], validated, log => (validated, log)
  | l :: rest, validated, log =>
    if truthyStr l.cache_key then
      let validated' := validated ++ [l]
      if validated'.length ≥ max_count then (validated', log)
      else validateLoop fetch max_count rest validated' log
    else
      match l.validateStep fetch with
      | (ok, l2, calls) =>
        if ok then
          let validated' := validated ++ [l2]
          if validated'.length ≥ max_count then (validated', log ++ calls)
          else validateLoop fetch max_count rest validated' (log ++ calls)
        else validateLoop fetch max_count rest validated (log ++ calls)

/-- `validate_top_candidates` (html_util.py lines 421-450), also reporting
every URL fetched while validating. -/
def validate_top_candidates (fetch : String → FetchOutcome)
    (links : List RelLink) (max_count : Nat) : List RelLink × List String :=
  validateLoop fetch max_count links [] []

/-- The favicon resolution pipeline (`get_page_metadata`, html_util.py lines
159-165, and spec §4.3 `resolve_favicons`): discover, rank, then validate the
top candidates. -/
def resolve_favicons (env : FaviconEnv) (fetch : String → FetchOutcome)
    (page_url : String) (soup : Option (Option (List HeadLink)))
    (inc : Option String) (favicon_width max_count : Nat) :
    List RelLink × List String :=
  validate_top_candidates fetch
    (sort_favicon_links (get_favicon_links env page_url soup inc) favicon_width inc)
    max_count

/-! ### unicode_util.py: the category analyzer

`unicodedata.category` is an external table; it enters the model as a
parameter `ucd : Char → MajorCat` giving the major (first-letter) category,
which is all `count_categories` keeps (`CATEGORY_MAP` maps each of the 30
fine categories to its first letter). -/

/-- The seven major Unicode categories, in the order of `CATEGORY_NAMES`
(unicode_util.py lines 41-49): Letter, Separator, Punctuation, Symbol,
Number, Mark, Other. -/
inductive MajorCat
  | L
  | Z
  | P
  | S
  | N
  | M
  | C
deriving DecidableEq

/-- A counter over the seven major categories (the `Counter` built by
`count_categories`). -/
structure CatCounts where
  letter : Nat := 0
  separator : Nat := 0
  punct : Nat := 0
  symbol : Nat := 0
  number : Nat := 0
  mark : Nat := 0
  other : Nat := 0
deriving DecidableEq

/-- Add one character of the given major category to the counter. -/
def CatCounts.bump (cc : CatCounts) : MajorCat → CatCounts
  | .L => { cc with letter := cc.letter + 1 }
  | .Z => { cc with separator := cc.separator + 1 }
  | .P => { cc with punct := cc.punct + 1 }
  | .S => { cc with symbol := cc.symbol + 1 }
  | .N => { cc with number := cc.number + 1 }
  | .M => { cc with mark := cc.mark + 1 }
  | .C => { cc with other := cc.other + 1 }

/-- `Counter.total()`. -/
def CatCounts.total (cc : CatCounts) : Nat :=
  cc.letter + cc.separator + cc.punct + cc.symbol + cc.number + cc.mark + cc.other

/-- `count_categories` (unicode_util.py lines 104-110). -/
def count_categories (ucd : Char → MajorCat) (s : String) : CatCounts :=
  s.data.foldl (fun acc c => acc.bump (ucd c)) {}

/-- `category_tensor` (unicode_util.py lines 113-123): ratios in the fixed
order Letter, Separator, Punctuation, Symbol, Number, Mark, Other (all zero
for an empty counter). -/
def category_tensor (cc : CatCounts) : List ℚ :=
  if cc.total > 0 then
    [(cc.letter : ℚ) / cc.total, (cc.separator : ℚ) / cc.total,
     (cc.punct : ℚ) / cc.total, (cc.symbol : ℚ) / cc.total,
     (cc.number : ℚ) / cc.total, (cc.mark : ℚ) / cc.total,
     (cc.other : ℚ) / cc.total]
  else [0, 0, 0, 0, 0, 0, 0]

/-- The sum of squared deviations from `STANDARD_TENSOR = [0.85, 0.12, 0.3,
0, 0, 0, 0]`, with denominators cleared: `(100·total)²` times the squared
`standard_distance` of unicode_util.py lines 142-154. -/
def distScaledSq (cc : CatCounts) : ℤ :=
  let tot : ℤ := cc.total
  (100 * (cc.letter : ℤ) - 85 * tot) ^ 2 +
  (100 * (cc.separator : ℤ) - 12 * tot) ^ 2 +
  (100 * (cc.punct : ℤ) - 30 * tot) ^ 2 +
  (100 * (cc.symbol : ℤ)) ^ 2 + (100 * (cc.number : ℤ)) ^ 2 +
  (100 * (cc.mark : ℤ)) ^ 2 + (100 * (cc.other : ℤ)) ^ 2

/-- The square of `standard_distance` (unicode_util.py lines 142-154) as an
exact rational.  `standard_distance` itself is the square root of this;
comparisons with a non-negative threshold `t` are equivalent to comparing
this value with `t²`. -/
def standardDistSq (cc : CatCounts) : ℚ :=
  (distScaledSq cc : ℚ) / ((100 * (cc.total : ℚ)) ^ 2)

/-- The major Unicode general category (the first letter of
`unicodedata.category`) for every ASCII code point, used to instantiate the
`ucd` collaborator on concrete ASCII inputs: letters are L, digits N, the
space Z, the symbol-category characters S, controls C, and the remaining
printable punctuation P. -/
def asciiMajor (c : Char) : MajorCat :=
  if (97 ≤ c.toNat ∧ c.toNat ≤ 122) ∨ (65 ≤ c.toNat ∧ c.toNat ≤ 90) then .L
  else if 48 ≤ c.toNat ∧ c.toNat ≤ 57 then .N
  else if c.toNat = 32 then .Z
  else if c.toNat ∈ [36, 43, 60, 61, 62, 94, 96, 124, 126] then .S
  else if c.toNat < 32 ∨ c.toNat = 127 then .C
  else if c.toNat < 127 then .P
  else .C

/-! ### text_util.py: tokens, lines and elements -/

def MAX_WORD_LEN : Nat :=
  String.length "pneumonoultramicroscopicsilicovolcanoconiosis"

def CODE_TAG : String := "<!code!>"

def HEAD_TAG : String := "<!head!>"

def BODY_TAG : String := "<!body!>"

def TEXT_TAG : String := "<!text!>"

def SPECIAL_TAG_LEN : Nat := 8

def SPECIAL_TAGS : List String := [CODE_TAG, HEAD_TAG, BODY_TAG, TEXT_TAG]

/-- `HTML_RULES` (text_util.py lines 44-49). -/
def HTML_RULES : List (String × String) := [("span", "inline"), ("option", "exclude")]

/-- `split_special_tag` (text_util.py lines 52-59). -/
def split_special_tag (s : String) : String × String :=
  let tag := String.mk (s.data.take SPECIAL_TAG_LEN)
  let other := String.mk (s.data.drop SPECIAL_TAG_LEN)
  if SPECIAL_TAGS.contains tag then (tag, other) else ("", s)

/-- `WordCategory` (text_util.py lines 184-189). -/
inductive WordCategory
  | nltk_words
  | nltk_synsets
  | like_url
  | like_email
deriving DecidableEq

/-- `SoupToken` (text_util.py lines 216-229).  `categorize_word` rests on the
NLTK word list, the WordNet synset database and float parsing — external
corpora — so it enters the model as the parameter `categorize`. -/
structure SoupToken where
  text : String
  word_category : Option WordCategory
deriving DecidableEq

/-- `SoupToken.is_word`. -/
def SoupToken.is_word (t : SoupToken) : Bool := t.word_category.isSome

/-- `SoupToken.__post_init__`: categorize the token text. -/
def mkSoupToken (categorize : String → Option WordCategory) (text : String) :
    SoupToken :=
  { text := text, word_category := categorize text }

/-- `SoupLine` (text_util.py lines 232-285).  The derived `category_tensor`
list field is omitted (it is a pure function of `category_counts`);
`standard_dist` is carried as its exact square `standard_dist_sq`. -/
structure SoupLine where
  parent_name : String
  name : String
  text : String
  keep : Bool
  category_counts : CatCounts
  standard_dist_sq : Option ℚ
  tokens : List SoupToken
  word_count : Nat
deriving DecidableEq

/-- `SoupLine.__post_init__` (text_util.py lines 245-277).  The script-line
promotion test `self.standard_dist < 0.4` is carried out on cleared
denominators (`distScaledSq cc < 1600·total²` is exactly
`standard_dist² < 0.16`), and `self.word_pct() > 0.5` as
`2·word_count > len(tokens)`. -/
def mkSoupLine (categorize : String → Option WordCategory) (ucd : Char → MajorCat)
    (parent_name name text : String) : SoupLine :=
  let keep0 :=
    if name = "script.String" then false
    else if HTML_RULES.lookup parent_name = some "exclude" then false
    else true
  let text1 := pyRstrip text
  if text1 = "" then
    { parent_name := parent_name, name := name, text := text1, keep := keep0,
      category_counts := {}, standard_dist_sq := none, tokens := [],
      word_count := 0 }
  else
    let cc := count_categories ucd text1
    let toks := (pySplitWs text1).map (mkSoupToken categorize)
    let wc := (toks.filter SoupToken.is_word).length
    let keep :=
      if name = "script.String" then
        if wc > 2 ∧ distScaledSq cc < 1600 * (cc.total : ℤ) ^ 2 ∧
            2 * wc > toks.length then true
        else keep0
      else keep0
    { parent_name := parent_name, name := name, text := text1, keep := keep,
      category_counts := cc, standard_dist_sq := some (standardDistSq cc),
      tokens := toks, word_count := wc }

/-- `SoupLine.word_pct` (text_util.py lines 279-282). -/
def SoupLine.word_pct (l : SoupLine) : ℚ :=
  if l.tokens.length > 0 then (l.word_count : ℚ) / (l.tokens.length : ℚ) else 0

/-- `SoupElem` (text_util.py lines 288-344).  The fields `char_count`,
`alnum_count`, `category_counter`, `char_counter`, `magika_type` and `tokens`
are never touched by `__post_init__` (they keep their defaults) and are
omitted; `min`/`max` standard distances are carried as their squares. -/
structure SoupElem where
  depth : Nat
  parent_name : String
  name : String
  text : String
  keep : Bool
  special_tag : String
  lines : List SoupLine
  token_count : Nat
  word_count : Nat
  min_standard_dist_sq : Option ℚ
  max_standard_dist_sq : Option ℚ
deriving DecidableEq

/-- The per-line accumulator state of the `__post_init__` loop of `SoupElem`
(text_util.py lines 323-344). -/
structure ElemAcc where
  word_count : Nat := 0
  token_count : Nat := 0
  keep : Bool := false
  minq : Option ℚ := none
  maxq : Option ℚ := none
deriving DecidableEq

/-- One iteration of the `SoupElem.__post_init__` loop: accumulate word and
token counts, the min/max standard distance, and the `keep` flag. -/
def elemStep (acc : ElemAcc) (l : SoupLine) : ElemAcc :=
  let mm : Option ℚ × Option ℚ :=
    match acc.minq with
    | none => (l.standard_dist_sq, l.standard_dist_sq)
    | some mn =>
      match l.standard_dist_sq with
      | some d => (some (min mn d), some (max (acc.maxq.getD mn) d))
      | none => (acc.minq, acc.maxq)
  { word_count := acc.word_count + l.word_count,
    token_count := acc.token_count + l.tokens.length,
    keep := acc.keep || l.keep,
    minq := mm.1, maxq := mm.2 }

/-- `SoupElem.__post_init__` (text_util.py lines 312-344): strip a special
tag, right-strip, split into lines, and fold the per-line accumulator. -/
def mkSoupElem (categorize : String → Option WordCategory) (ucd : Char → MajorCat)
    (depth : Nat) (parent_name name text : String) : SoupElem :=
  let tagOther := split_special_tag text
  let text1 := if tagOther.1 ≠ "" then tagOther.2 else text
  let text2 := pyRstrip text1
  if text2 = "" then
    { depth := depth, parent_name := parent_name, name := name, text := text2,
      keep := false, special_tag := tagOther.1, lines := [], token_count := 0,
      word_count := 0, min_standard_dist_sq := none, max_standard_dist_sq := none }
  else
    let lns := (pySplitLines text2).map (mkSoupLine categorize ucd parent_name name)
    let acc := lns.foldl elemStep {}
    { depth := depth, parent_name := parent_name, name := name, text := text2,
      keep := acc.keep, special_tag := tagOther.1, lines := lns,
      token_count := acc.token_count, word_count := acc.word_count,
      min_standard_dist_sq := acc.minq, max_standard_dist_sq := acc.maxq }

/-- `strip_quotes` (text_util.py lines 69-81).  Indexing `s[0]`/`s[-1]`
raises `IndexError` on an empty string; the raise is modelled as `none`. -/
def strip_quotes (s : String) : Option String :=
  let t := pyStrip s
  match t.data with
  | [] => none
  | c :: rest =>
    let lastc := (c :: rest).getLast (by simp)
    let core :=
      if c = Char.ofNat 39 ∧ lastc = Char.ofNat 39 then
        String.mk rest.dropLast
      else if c = Char.ofNat 34 ∧ lastc = Char.ofNat 34 then
        String.mk rest.dropLast
      else t
    some (pyStrip core)

/-! ### Definitions following the spec's words (for refinement claims) -/

/-- Definition following the spec's words, for claim C2 condition (a): the
longest run of non-space characters in a line. -/
def specLongestNonSpaceRun (s : String) : Nat :=
  ((pySplitWs s).map String.length).foldl max 0

/-- A concrete instance of the `categorize_word` collaborator that agrees
with the real NLTK/WordNet classifier on every token of the concrete inputs
below: "cat", "dog" and "house" are dictionary words; a 46-character run of
the letter a, pure punctuation and number-like tokens are not recognized. -/
def demoLexicon (s : String) : Option WordCategory :=
  if s = "cat" ∨ s = "dog" ∨ s = "house" then some WordCategory.nltk_words
  else none

/-- The concrete script-literal line used to refute claim C2: three real
dictionary words followed by one 46-character non-word run. -/
def c2text : String := "cat dog house " ++ String.mk (List.replicate 46 'a')

/-! ### Concrete instances used by counterexamples and witnesses -/

/-- Cache tiers with no entries at all. -/
def emptyTiers : CacheTiers :=
  { overrides := fun _ => none, defaults := fun _ => none,
    discovered := fun _ => none }

/-- A discovery environment with empty caches and failing conversion probes. -/
def demoEnv : FaviconEnv :=
  { caches := emptyTiers, request_host := "localhost:8532",
    convert_ico_ok := fun _ => false, convert_svg_ok := fun _ => false }

/-- A validated 20×25 PNG candidate: area 500, above the target area 400 by
100, so its sort distance is 100. -/
def c1_above : RelLink :=
  { href := "http://example.com/large.png",
    resolved_href := some "http://example.com/large.png",
    width := some 20, height := some 25, image_type := some "image/png",
    validated := true }

/-- A validated 20×15 PNG candidate: area 300, below the target area 400 by
100, so its sort distance is `int(100 * 1.2) = 120`. -/
def c1_below : RelLink :=
  { href := "http://example.com/small.png",
    resolved_href := some "http://example.com/small.png",
    width := some 15, height := some 20, image_type := some "image/png",
    validated := true }

/-- A validated 20×20 PNG candidate: exactly the target area, distance 0. -/
def c4_known : RelLink :=
  { href := "http://example.com/exact.png",
    resolved_href := some "http://example.com/exact.png",
    width := some 20, height := some 20, image_type := some "image/png",
    validated := true }

/-- A freshly discovered, not-yet-validated candidate: its width and height
hold the dataclass default 0, not `None`. -/
def c4_fresh : RelLink := { href := "http://example.com/probe.png" }

/-- A candidate whose dimensions are `None`, the only shape that reaches the
999999 sentinel branch of the sort key. -/
def c4_sentinel : RelLink :=
  { href := "http://example.com/nosize.png", width := none, height := none,
    image_type := some "image/png" }

/-- Cache tiers with a single override entry for `example.com`. -/
def c6_tiers : CacheTiers :=
  { overrides := fun s =>
      if s = "example.com" then some "http://cdn.example.com/icon.png" else none,
    defaults := fun _ => none, discovered := fun _ => none }

/-- Environment whose cache holds the single `example.com` override. -/
def c6_env : FaviconEnv :=
  { caches := c6_tiers, request_host := "localhost:8532",
    convert_ico_ok := fun _ => false, convert_svg_ok := fun _ => false }

/-- A fetch oracle that fails every request; any request made through it is
still recorded in the fetch log. -/
def failFetch : String → FetchOutcome := fun _ => FetchOutcome.raise

/-! ## Foundational lemmas -/

/-- `lexLt` coincides with lexicographic ordering of character lists. -/
theorem lexLt_iff_lex :
    ∀ a b : List Char, lexLt a b = true ↔ List.Lex (· < ·) a b := by
  intro a
  induction a with
  | nil =>
    intro b
    cases b with
    | nil =>
      simp only [lexLt]
      constructor
      · intro h
        exact absurd h (by simp)
      · intro h
        cases h
    | cons bh bt =>
      simp only [lexLt]
      exact ⟨fun _ => List.Lex.nil, fun _ => trivial⟩
  | cons ah ta ih =>
    intro b
    cases b with
    | nil =>
      simp only [lexLt]
      constructor
      · intro h
        exact absurd h (by simp)
      · intro h
        cases h
    | cons bh bt =>
      simp only [lexLt]
      by_cases h1 : ah < bh
      · simp only [if_pos h1]
        exact ⟨fun _ => List.Lex.rel h1, fun _ => trivial⟩
      · simp only [if_neg h1]
        by_cases h2 : bh < ah
        · simp only [if_pos h2]
          constructor
          · intro h
            exact absurd h (by simp)
          · intro h
            cases h with
            | cons h' => exact absurd h2 (lt_irrefl _)
            | rel h' => exact absurd h1 (by exact fun _ => (lt_asymm h2) h')
        · simp only [if_neg h2]
          have heq : ah = bh := le_antisymm (not_lt.mp h2) (not_lt.mp h1)
          subst heq
          rw [ih bt]
          constructor
          · intro h
            exact List.Lex.cons h
          · intro h
            cases h with
            | cons h' => exact h'
            | rel h' => exact absurd h' (lt_irrefl _)

/-- `pyStrLt` is the strict order on strings. -/
theorem pyStrLt_iff_lt (s t : String) : pyStrLt s t = true ↔ s < t := by
  have h1 : pyStrLt s t = true ↔ List.Lex (· < ·) s.data t.data :=
    lexLt_iff_lex s.data t.data
  have h3 : s < t ↔ s.toList < t.toList := String.lt_iff_toList_lt
  have h4 : s.toList < t.toList ↔ List.Lex (· < ·) s.data t.data := Iff.rfl
  exact h1.trans ((h3.trans h4).symm)

/-- `lexLt` ignores a common left factor. -/
theorem lexLt_append_cancel (p : List Char) (u v : List Char) :
    lexLt (p ++ u) (p ++ v) = lexLt u v := by
  induction p with
  | nil => rfl
  | cons c t ih =>
    simp only [List.cons_append, lexLt, if_neg (lt_irrefl c)]
    exact ih

/-- Membership in `stableInsert`. -/
theorem mem_stableInsert (le : α → α → Bool) (a x : α) (l : List α) :
    x ∈ stableInsert le a l ↔ x = a ∨ x ∈ l := by
  induction l with
  | nil => simp [stableInsert]
  | cons b t ih =>
    simp only [stableInsert]
    by_cases h : le b a = true
    · simp only [if_pos h, List.mem_cons, ih]
      tauto
    · simp only [if_neg h, List.mem_cons]

/-- `stableInsert` preserves sortedness for a total transitive comparator. -/
theorem pairwise_stableInsert (le : α → α → Bool)
    (tot : ∀ x y, le x y = false → le y x = true)
    (htrans : ∀ x y z, le x y = true → le y z = true → le x z = true)
    (a : α) (l : List α) (h : l.Pairwise (fun x y => le x y = true)) :
    (stableInsert le a l).Pairwise (fun x y => le x y = true) := by
  induction l with
  | nil => simp [stableInsert]
  | cons b t ih =>
    rw [List.pairwise_cons] at h
    simp only [stableInsert]
    by_cases hba : le b a = true
    · simp only [if_pos hba]
      rw [List.pairwise_cons]
      refine ⟨?_, ih h.2⟩
      intro y hy
      rcases (mem_stableInsert le a y t).mp hy with rfl | hyt
      · exact hba
      · exact h.1 y hyt
    · simp only [if_neg hba]
      have hab : le a b = true := tot b a (by revert hba; cases le b a <;> simp)
      rw [List.pairwise_cons]
      refine ⟨?_, List.pairwise_cons.mpr h⟩
      intro y hy
      rcases List.mem_cons.mp hy with rfl | hyt
      · exact hab
      · exact htrans a b y hab (h.1 y hyt)

/-- `stableSort` sorts (pairwise comparator holds along the output). -/
theorem pairwise_stableSort (le : α → α → Bool)
    (tot : ∀ x y, le x y = false → le y x = true)
    (htrans : ∀ x y z, le x y = true → le y z = true → le x z = true)
    (l : List α) :
    (stableSort le l).Pairwise (fun x y => le x y = true) := by
  suffices h : ∀ acc : List α, acc.Pairwise (fun x y => le x y = true) →
      (l.foldl (fun acc a => stableInsert le a acc) acc).Pairwise
        (fun x y => le x y = true) by
    exact h [] (by simp)
  induction l with
  | nil => intro acc hacc; exact hacc
  | cons b t ih =>
    intro acc hacc
    exact ih _ (pairwise_stableInsert le tot htrans b acc hacc)

/-- `stableSort` has the same members as its input. -/
theorem mem_stableSort (le : α → α → Bool) (x : α) (l : List α) :
    x ∈ stableSort le l ↔ x ∈ l := by
  suffices h : ∀ acc : List α,
      (x ∈ l.foldl (fun acc a => stableInsert le a acc) acc ↔ x ∈ acc ∨ x ∈ l) by
    have := h []
    simpa using this
  induction l with
  | nil => intro acc; simp
  | cons b t ih =>
    intro acc
    simp only [List.foldl_cons]
    rw [ih (stableInsert le b acc)]
    rw [mem_stableInsert]
    simp only [List.mem_cons]
    tauto

/-- Two distinct members of a list occur in one of the two orders. -/
theorem pair_sublist_of_mem {a b : α} {l : List α}
    (ha : a ∈ l) (hb : b ∈ l) (hne : a ≠ b) :
    [a, b].Sublist l ∨ [b, a].Sublist l := by
  induction l with
  | nil => cases ha
  | cons x t ih =>
    rcases List.mem_cons.mp ha with rfl | hat
    · left
      have hbt : b ∈ t := by
        rcases List.mem_cons.mp hb with rfl | h
        · exact absurd rfl hne
        · exact h
      exact List.Sublist.cons₂ a (List.singleton_sublist.mpr hbt)
    · rcases List.mem_cons.mp hb with rfl | hbt
      · right
        exact List.Sublist.cons₂ b (List.singleton_sublist.mpr hat)
      · rcases ih hat hbt with h | h
        · exact Or.inl (h.cons x)
        · exact Or.inr (h.cons x)

/-- In a pairwise-sorted list, an element that may not follow another must
precede it. -/
theorem sublist_pair_of_pairwise {R : α → α → Prop} {a b : α} {l : List α}
    (hp : l.Pairwise R) (ha : a ∈ l) (hb : b ∈ l) (hne : a ≠ b)
    (hnba : ¬ R b a) : [a, b].Sublist l := by
  rcases pair_sublist_of_mem ha hb hne with h | h
  · exact h
  · exfalso
    have := hp.sublist h
    rw [List.pairwise_cons] at this
    exact hnba (this.1 a (by simp))

/-! ## Decimal digit lemmas (for the padded composite sort key) -/

/-- Every digit character lies between '0' and '9'. -/
theorem digitChar_bounds (d : Nat) : '0' ≤ digitChar d ∧ digitChar d ≤ '9' := by
  rcases Nat.lt_or_ge d 9 with h | h
  · interval_cases d <;> exact (by decide)
  · obtain ⟨n, rfl⟩ : ∃ n, d = n + 9 := ⟨d - 9, by omega⟩
    exact (by decide : '0' ≤ '9' ∧ '9' ≤ '9')

/-- Value of a digit character for `d < 10`. -/
theorem digitChar_val (d : Nat) (h : d < 10) : (digitChar d).toNat - 48 = d := by
  rcases Nat.lt_or_ge d 9 with h9 | h9
  · interval_cases d <;> exact (by decide)
  · obtain ⟨n, rfl⟩ : ∃ n, d = n + 9 := ⟨d - 9, by omega⟩
    obtain rfl : n = 0 := by omega
    exact (by decide : ('9').toNat - 48 = 9)

/-- Every character emitted by `natDigitsAux` is a digit. -/
theorem natDigitsAux_all_digits :
    ∀ fuel n : Nat, ∀ c ∈ natDigitsAux fuel n, '0' ≤ c ∧ c ≤ '9' := by
  intro fuel
  induction fuel with
  | zero =>
    intro n c hc
    simp only [natDigitsAux, List.mem_singleton] at hc
    subst hc
    exact digitChar_bounds n
  | succ fuel ih =>
    intro n c hc
    by_cases h : n < 10
    · simp only [natDigitsAux, if_pos h, List.mem_singleton] at hc
      subst hc
      exact digitChar_bounds n
    · simp only [natDigitsAux, if_neg h, List.mem_append, List.mem_singleton] at hc
      rcases hc with hc | hc
      · exact ih (n / 10) c hc
      · subst hc
        exact digitChar_bounds (n % 10)

/-- Length bound for `natDigitsAux`: numbers below `10^k` print in at most
`k` digits. -/
theorem natDigitsAux_length :
    ∀ fuel k n : Nat, n ≤ fuel → n < 10 ^ k → 1 ≤ k →
      (natDigitsAux fuel n).length ≤ k := by
  intro fuel
  induction fuel with
  | zero =>
    intro k n hn _ hk
    simp only [natDigitsAux, List.length_singleton]
    omega
  | succ fuel ih =>
    intro k n hn hnk hk
    by_cases h : n < 10
    · simp only [natDigitsAux, if_pos h, List.length_singleton]
      omega
    · simp only [natDigitsAux, if_neg h, List.length_append, List.length_singleton]
      have hk2 : 2 ≤ k := by
        by_contra hlt
        have hk1 : k = 1 := by omega
        subst hk1
        simp at hnk
        omega
      have hdiv : n / 10 < 10 ^ (k - 1) := by
        rw [Nat.div_lt_iff_lt_mul (by omega)]
        calc n < 10 ^ k := hnk
          _ = 10 ^ (k - 1) * 10 := by
            rw [← Nat.pow_succ]
            congr 1
            omega
      have hfuel : n / 10 ≤ fuel := by
        have := Nat.div_lt_self (by omega : 0 < n) (by omega : 1 < 10)
        omega
      have := ih (k - 1) (n / 10) hfuel hdiv (by omega)
      omega

/-- `digitsVal` of a list with one digit appended. -/
theorem digitsVal_append_digit (l : List Char) (c : Char) :
    digitsVal (l ++ [c]) = 10 * digitsVal l + (c.toNat - 48) := by
  simp [digitsVal, List.foldl_append]

/-- `natDigitsAux` prints the number it is given (with sufficient fuel). -/
theorem natDigitsAux_val :
    ∀ fuel n : Nat, n ≤ fuel → digitsVal (natDigitsAux fuel n) = n := by
  intro fuel
  induction fuel with
  | zero =>
    intro n hn
    have : n = 0 := by omega
    subst this
    decide
  | succ fuel ih =>
    intro n hn
    by_cases h : n < 10
    · simp only [natDigitsAux, if_pos h]
      show digitsVal [digitChar n] = n
      simp only [digitsVal, List.foldl_cons, List.foldl_nil]
      rw [Nat.mul_zero, Nat.zero_add]
      exact digitChar_val n h
    · simp only [natDigitsAux, if_neg h]
      rw [digitsVal_append_digit]
      have hfuel : n / 10 ≤ fuel := by
        have := Nat.div_lt_self (by omega : 0 < n) (by omega : 1 < 10)
        omega
      rw [ih (n / 10) hfuel]
      rw [digitChar_val (n % 10) (Nat.mod_lt n (by omega))]
      omega

/-- Leading zeros do not change the value of a digit list. -/
theorem digitsVal_replicate_zero :
    ∀ (k : Nat) (l : List Char),
      digitsVal (List.replicate k '0' ++ l) = digitsVal l := by
  intro k
  induction k with
  | zero => intro l; rfl
  | succ k ih =>
    intro l
    rw [List.replicate_succ, List.cons_append]
    show digitsVal ('0' :: (List.replicate k '0' ++ l)) = digitsVal l
    simp only [digitsVal, List.foldl_cons]
    exact ih l

/-- A digit string of the same length as an all-nines string is
lexicographically below it unless it is the all-nines string itself. -/
theorem lexLt_all_nines :
    ∀ s : List Char, (∀ c ∈ s, c ≤ '9') → s ≠ List.replicate s.length '9' →
      lexLt s (List.replicate s.length '9') = true := by
  intro s
  induction s with
  | nil => intro _ h; simp at h
  | cons c t ih =>
    intro hc hne
    rw [List.length_cons, List.replicate_succ]
    simp only [lexLt]
    by_cases h1 : c < '9'
    · simp [h1]
    · have hc9 : c = '9' := le_antisymm (hc c (by simp)) (not_lt.mp h1)
      subst hc9
      rw [if_neg (lt_irrefl _), if_neg (lt_irrefl _)]
      apply ih
      · intro x hx
        exact hc x (by simp [hx])
      · intro heq
        apply hne
        rw [List.length_cons, List.replicate_succ]
        exact congrArg (List.cons '9') heq

/-- The padded distance component of a key with distance below the 999999
sentinel is lexicographically below the sentinel's component. -/
theorem pad9_lt_sentinel (d : Nat) (hd : d < 999999) :
    lexLt (pyFormat0d 9 d).data (pyFormat0d 9 999999).data = true := by
  have h9 : (pyFormat0d 9 999999).data =
      List.replicate 3 '0' ++ List.replicate 6 '9' := by decide
  have hlen : (natDigits d).length ≤ 6 := by
    apply natDigitsAux_length d 6 d le_rfl
    · show d < 10 ^ 6
      norm_num
      omega
    · omega
  have hdata : (pyFormat0d 9 d).data =
      List.replicate 3 '0' ++ (List.replicate (6 - (natDigits d).length) '0' ++ natDigits d) := by
    show List.replicate (9 - (natDigits d).length) '0' ++ natDigits d = _
    rw [show 9 - (natDigits d).length = 3 + (6 - (natDigits d).length) by omega]
    rw [List.replicate_add, List.append_assoc]
  rw [h9, hdata, lexLt_append_cancel]
  have hlen6 : (List.replicate (6 - (natDigits d).length) '0' ++ natDigits d).length = 6 := by
    simp only [List.length_append, List.length_replicate]
    omega
  rw [show List.replicate 6 '9' =
      List.replicate (List.replicate (6 - (natDigits d).length) '0' ++ natDigits d).length '9' by
    rw [hlen6]]
  apply lexLt_all_nines
  · intro c hcmem
    rcases List.mem_append.mp hcmem with hx | hx
    · rw [List.eq_of_mem_replicate hx]
      decide
    · exact (natDigitsAux_all_digits d d c hx).2
  · intro heq
    have hv := congrArg digitsVal heq
    rw [digitsVal_replicate_zero, hlen6] at hv
    have hval : digitsVal (natDigits d) = d := natDigitsAux_val d d le_rfl
    rw [hval] at hv
    have h999 : digitsVal (List.replicate 6 '9') = 999999 := by decide
    rw [h999] at hv
    omega

/-! ## Sort-key comparison lemmas -/

/-- Within one precedence group, a key with distance below the sentinel is
strictly below a key at the 999999 sentinel. -/
theorem key_fn_lt_sentinel (ta : Nat) (a b : RelLink)
    (hg : keyGroup b = keyGroup a)
    (hb : keyDistance b ta < 999999) (ha : keyDistance a ta = 999999) :
    pyStrLt (key_fn ta b) (key_fn ta a) = true := by
  show lexLt (key_fn ta b).data (key_fn ta a).data = true
  have hkb : (key_fn ta b).data =
      ((pyFormat0d 3 (keyGroup a)).data ++ "_".data) ++
        (pyFormat0d 9 (keyDistance b ta)).data := by
    simp [key_fn, hg, List.append_assoc]
  have hka : (key_fn ta a).data =
      ((pyFormat0d 3 (keyGroup a)).data ++ "_".data) ++
        (pyFormat0d 9 (keyDistance a ta)).data := by
    simp [key_fn, List.append_assoc]
  rw [hkb, hka, lexLt_append_cancel, ha]
  exact pad9_lt_sentinel _ hb

/-- The sort comparator as an inequality on keys. -/
theorem faviconLe_iff (ta : Nat) (x y : RelLink) :
    faviconLe ta x y = true ↔ key_fn ta y ≤ key_fn ta x := by
  unfold faviconLe
  rw [Bool.not_eq_true']
  constructor
  · intro h
    rw [← not_lt]
    intro hlt
    rw [(pyStrLt_iff_lt _ _).mpr hlt] at h
    cases h
  · intro h
    rcases hb : pyStrLt (key_fn ta x) (key_fn ta y) with _ | _
    · rfl
    · exact absurd ((pyStrLt_iff_lt _ _).mp hb) (not_lt.mpr h)

/-- Totality of the sort comparator. -/
theorem faviconLe_total (ta : Nat) (x y : RelLink) :
    faviconLe ta x y = false → faviconLe ta y x = true := by
  intro h
  rw [faviconLe_iff]
  rcases le_total (key_fn ta y) (key_fn ta x) with hle | hle
  · exact absurd ((faviconLe_iff ta x y).mpr hle) (by simp [h])
  · exact hle

/-- Transitivity of the sort comparator. -/
theorem faviconLe_trans (ta : Nat) (x y z : RelLink) :
    faviconLe ta x y = true → faviconLe ta y z = true →
      faviconLe ta x z = true := by
  intro h1 h2
  rw [faviconLe_iff] at h1 h2 ⊢
  exact le_trans h2 h1

/-! ## Favicon discovery lemmas -/

/-- A conversion candidate is built with `resolved_href = None`, so the
`is_valid()` guard on html_util.py lines 399/411 rejects it: one step of the
conversion loop never extends the accumulator. -/
theorem conversionStep_eq (env : FaviconEnv) (acc : List RelLink) (l : RelLink) :
    conversionStep env acc l = acc := by
  unfold conversionStep
  split
  · split
    · simp [RelLink.is_valid]
    · rfl
  · split
    · split
      · simp [RelLink.is_valid]
      · rfl
    · rfl

/-- The conversion pass of `get_favicon_links` contributes nothing:
`conversion_links` is always empty, because every conversion candidate is
rejected by its own `is_valid()` guard before validation could ever run.
This contradicts the function's docstring ("Only creates ICO/SVG→PNG
conversions if no other formats ... are available"). -/
theorem conversionLinks_eq_nil (env : FaviconEnv) (links : List RelLink) :
    conversionLinks env links = [] := by
  unfold conversionLinks
  suffices h : ∀ acc : List RelLink, links.foldl (conversionStep env) acc = acc from
    h []
  induction links with
  | nil => intro acc; rfl
  | cons l t ih =>
    intro acc
    rw [List.foldl_cons, conversionStep_eq]
    exact ih acc

/-- A string with a "/"-joint in the middle is non-empty. -/
theorem append_mid_ne_empty (a m b : String) (hm : 0 < m.length) :
    a ++ m ++ b ≠ "" := by
  intro h
  have hlen := congrArg String.length h
  rw [String.length_append, String.length_append] at hlen
  have hz : String.length "" = 0 := rfl
  rw [hz] at hlen
  omega

/-- Membership in a conditional singleton. -/
theorem mem_ite_singleton {s x : String} {c : Prop} [Decidable c]
    (h : s ∈ (if c then [x] else [])) : s = x := by
  split at h
  · simpa using h
  · cases h

/-- Shape of a `lookupTier` hit: a pre-validated cached link built from a
truthy cache value and one of the search paths. -/
theorem lookupTier_shape (tier : String → Option String) :
    ∀ (paths : List String) (r : RelLink), lookupTier tier paths = some r →
      ∃ fav s, s ∈ paths ∧ fav ≠ "" ∧ r = mkCachedRelLink fav s := by
  intro paths
  induction paths with
  | nil => intro r h; cases h
  | cons s rest ih =>
    intro r h
    rcases htier : tier s with _ | fav
    · simp only [lookupTier, htier] at h
      obtain ⟨fav, s', hs', hfav, hr⟩ := ih r h
      exact ⟨fav, s', by simp [hs'], hfav, hr⟩
    · simp only [lookupTier, htier] at h
      by_cases hfav : fav = ""
      · rw [if_pos hfav] at h
        obtain ⟨fav', s', hs', hfav', hr⟩ := ih r h
        exact ⟨fav', s', by simp [hs'], hfav', hr⟩
      · rw [if_neg hfav] at h
        injection h with h
        exact ⟨fav, s, by simp, hfav, h.symm⟩

/-- Every element of `netlocSuffixes` is non-empty. -/
theorem netlocSuffixes_ne_empty :
    ∀ (toks : List String), ∀ s ∈ netlocSuffixes toks, s ≠ "" := by
  intro toks
  induction toks with
  | nil => intro s hs; cases hs
  | cons t rest ih =>
    intro s hs
    cases rest with
    | nil => cases hs
    | cons u rest2 =>
      simp only [netlocSuffixes, List.mem_cons] at hs
      rcases hs with rfl | hs
      · rw [pyJoinDot]
        exact append_mid_ne_empty t "." (pyJoinDot (u :: rest2)) (by decide)
      · exact ih s hs

/-- Every search path built by `get_favicon_cache` is non-empty. -/
theorem searchPaths_ne_empty (u : String) : ∀ s ∈ searchPaths u, s ≠ "" := by
  intro s hs
  simp only [searchPaths, List.mem_append] at hs
  rcases hs with hs | hs
  · rw [mem_ite_singleton hs]
    exact append_mid_ne_empty _ "/" _ (by decide)
  · exact netlocSuffixes_ne_empty _ s hs

/-- Shape of a `get_favicon_cache` hit. -/
theorem get_favicon_cache_shape (caches : CacheTiers) (u : String) (r : RelLink)
    (h : get_favicon_cache caches u = some r) :
    ∃ fav s, s ∈ searchPaths u ∧ fav ≠ "" ∧ r = mkCachedRelLink fav s := by
  rcases h1 : lookupTier caches.overrides (searchPaths u) with _ | r1
  · rcases h2 : lookupTier caches.defaults (searchPaths u) with _ | r2
    · simp only [get_favicon_cache, h1, h2] at h
      exact lookupTier_shape _ _ _ h
    · simp only [get_favicon_cache, h1, h2] at h
      injection h with h
      subst h
      exact lookupTier_shape _ _ _ h2
  · simp only [get_favicon_cache, h1] at h
    injection h with h
    subst h
    exact lookupTier_shape _ _ _ h1

/-- A cache hit carries a truthy `cache_key`. -/
theorem cache_hit_truthy (caches : CacheTiers) (u : String) (r : RelLink)
    (h : get_favicon_cache caches u = some r) :
    truthyStr r.cache_key = true := by
  obtain ⟨fav, s, hs, _, rfl⟩ := get_favicon_cache_shape caches u r h
  exact decide_eq_true (searchPaths_ne_empty u s hs)

/-! ## Claim C1 -/

/-- Claim C1 (code bug evaluation): `sort_favicon_links` is claimed to order
same-group candidates by ascending distance from the target area, with a
below-target candidate never sorting before an above-target one at equal
absolute deviation.  At target width 20 (target area 400), the validated
20×25 candidate `c1_above` (area 500, distance 100) and 15×20 candidate
`c1_below` (area 300, distance `int(100·1.2) = 120`) are in the same group
500, yet the reverse string sort puts the larger distance first: the sorted
output is `[c1_below, c1_above]`, the below-target candidate outranking the
above-target one, contradicting the claim, the docstring ("Slightly larger
favicons are preferred over smaller ones") and the inline comment ("lower
distance first within group"). -/
theorem claim_C1_code_eval :
    keyGroup c1_below = keyGroup c1_above ∧
    keyDistance c1_below (20 * 20) = 120 ∧
    keyDistance c1_above (20 * 20) = 100 ∧
    sort_favicon_links [c1_above, c1_below] 20 none = [c1_below, c1_above] := by
  decide

/-! ## Claim C3 -/

/-- Claim C3 (code bug evaluation): the claim says that with no cache entry
and no head favicon links, best-only resolution probes the conventional file
list, finds and validates `favicon.ico` as ICO, and adds an ICO→PNG
conversion-proxy candidate.  In the code, the best-only fallback returns
after constructing the very first probe (`favicon.png`), unvalidated, never
reaching `favicon.ico`; and even in "all" mode all five probes are returned
with `image_type = None`, so the conversion pass (which inspects
`image_type` before any validation, and additionally discards any fresh
candidate via `is_valid()`) appends nothing. -/
theorem claim_C3_code_eval :
    get_favicon_links demoEnv "http://example.com/articles/42" (some (some [])) none =
      [{ href := "http://example.com/favicon.png" }] ∧
    get_favicon_links demoEnv "http://example.com/articles/42" (some (some []))
        (some "all") =
      [{ href := "http://example.com/favicon.png" },
       { href := "http://example.com/favicon.jpg" },
       { href := "http://example.com/favicon.gif" },
       { href := "http://example.com/favicon.ico" },
       { href := "http://example.com/favicon.svg" }] := by
  decide

/-! ## Claim C4 -/

/-- Counterexample to claim C4: the claim says every candidate whose pixel
dimensions are not yet resolved by validation gets sentinel distance 999999
and sorts last within its group.  The unvalidated probe `c4_fresh` carries
the dataclass defaults `width = height = 0` (not `None`), receives distance
`int(1.2·400) = 480`, not 999999, and sorts *before* the validated 20×20
candidate of its group, not last. -/
theorem claim_C4_counterexample :
    c4_fresh.validated = false ∧
    keyGroup c4_fresh = keyGroup c4_known ∧
    keyDistance c4_fresh (20 * 20) = 480 ∧
    sort_favicon_links [c4_known, c4_fresh] 20 none = [c4_fresh, c4_known] := by
  decide

/-- Claim C4 (amended): the 999999 sentinel applies to candidates whose
`width` or `height` is `None` (not merely unvalidated, which leaves the
defaults 0), and because the composite string key is sorted in one reverse
pass, such a candidate sorts *first* within its precedence group, before
every same-group candidate with known dimensions and distance below the
sentinel. -/
theorem claim_C4_amended (l : List RelLink) (a b : RelLink) (w : Nat)
    (inc : Option String)
    (hnc : ∀ x ∈ l, truthyStr x.cache_key = false)
    (ha : a ∈ l) (hb : b ∈ l)
    (hdim : a.width = none ∨ a.height = none)
    (hbw : b.width ≠ none) (hbh : b.height ≠ none)
    (hg : keyGroup a = keyGroup b)
    (hbd : keyDistance b (w * w) < 999999) :
    keyDistance a (w * w) = 999999 ∧
    [a, b].Sublist (sort_favicon_links l w inc) := by
  have hda : keyDistance a (w * w) = 999999 := by
    rcases hdim with h | h
    · unfold keyDistance
      rw [h]
    · unfold keyDistance
      rw [h]
      rcases a.width with _ | ww
      · rfl
      · rfl
  refine ⟨hda, ?_⟩
  have hne : a ≠ b := by
    intro heq
    rcases hdim with h | h
    · exact hbw (by rw [← heq]; exact h)
    · exact hbh (by rw [← heq]; exact h)
  cases l with
  | nil => cases ha
  | cons f rest =>
    have hf : truthyStr f.cache_key = false := hnc f (by simp)
    have hsort : sort_favicon_links (f :: rest) w inc =
        stableSort (faviconLe (w * w)) (f :: rest) := by
      simp only [sort_favicon_links]
      rw [if_neg]
      intro hcond
      rw [hf] at hcond
      exact absurd hcond.1 (by simp)
    rw [hsort]
    apply sublist_pair_of_pairwise
      (pairwise_stableSort (faviconLe (w * w)) (faviconLe_total (w * w))
        (faviconLe_trans (w * w)) (f :: rest))
      ((mem_stableSort _ a _).mpr ha) ((mem_stableSort _ b _).mpr hb) hne
    intro hba
    have hlt : pyStrLt (key_fn (w * w) b) (key_fn (w * w) a) = true :=
      key_fn_lt_sentinel (w * w) a b hg.symm hbd hda
    unfold faviconLe at hba
    rw [hlt] at hba
    cases hba

/-- Witness for the amended claim C4: a `None`-dimensioned candidate placed
after the exact-size candidate in discovery order still sorts first. -/
theorem claim_C4_witness :
    keyDistance c4_sentinel (20 * 20) = 999999 ∧
    [c4_sentinel, c4_known].Sublist
      (sort_favicon_links [c4_known, c4_sentinel] 20 none) :=
  claim_C4_amended [c4_known, c4_sentinel] c4_sentinel c4_known 20 none
    (by decide) (by decide) (by decide) (by decide) (by decide) (by decide)
    (by decide) (by decide)

/-! ## Category-analyzer lemmas -/

/-- Bumping a counter raises its total by one. -/
theorem CatCounts.total_bump (cc : CatCounts) (m : MajorCat) :
    (cc.bump m).total = cc.total + 1 := by
  cases m <;> simp [CatCounts.bump, CatCounts.total] <;> omega

/-- The category counter of a string totals its length. -/
theorem count_categories_total (ucd : Char → MajorCat) (s : String) :
    (count_categories ucd s).total = s.data.length := by
  unfold count_categories
  suffices h : ∀ (l : List Char) (acc : CatCounts),
      (l.foldl (fun acc c => acc.bump (ucd c)) acc).total = acc.total + l.length by
    have := h s.data {}
    simpa [CatCounts.total] using this
  intro l
  induction l with
  | nil => intro acc; simp
  | cons c t ih =>
    intro acc
    rw [List.foldl_cons, ih, CatCounts.total_bump, List.length_cons]
    omega

/-- The comparison `standard_dist < 0.4` on cleared denominators: for a
non-empty text, the squared standard distance is below `0.16 = (2/5)²`
exactly when the integer form is below `1600·total²`. -/
theorem standardDistSq_lt_iff (cc : CatCounts) (h : 0 < cc.total) :
    standardDistSq cc < 4 / 25 ↔ distScaledSq cc < 1600 * (cc.total : ℤ) ^ 2 := by
  unfold standardDistSq
  rw [div_lt_iff₀ (by positivity : (0:ℚ) < (100 * (cc.total : ℚ)) ^ 2)]
  rw [show (4:ℚ) / 25 * (100 * (cc.total : ℚ)) ^ 2 =
      ((1600 * (cc.total : ℤ) ^ 2 : ℤ) : ℚ) by push_cast; ring]
  exact Int.cast_lt

/-- A non-empty string has a non-empty character list. -/
theorem data_ne_nil_of_ne_empty {s : String} (h : s ≠ "") : s.data ≠ [] := by
  intro hd
  apply h
  cases s with
  | mk l =>
    have hl : l = [] := hd
    subst hl
    rfl

/-- A boolean `if P then true else false` is `true` exactly when `P`. -/
theorem ite_true_false_iff (P : Prop) [Decidable P] :
    (if P then true else false) = true ↔ P := by
  by_cases h : P
  · simp [h]
  · simp [h]

/-- The word ratio exceeds one half exactly when twice the word count
exceeds the token count. -/
theorem word_pct_gt_half_iff (wc len : Nat) (hwc : wc ≤ len) :
    (if len > 0 then (wc : ℚ) / (len : ℚ) else 0) > 1 / 2 ↔ 2 * wc > len := by
  by_cases h : len > 0
  · rw [if_pos h]
    rw [gt_iff_lt, lt_div_iff₀ (by exact_mod_cast h : (0:ℚ) < (len : ℚ))]
    constructor
    · intro hx
      have hq : (len : ℚ) < 2 * (wc : ℚ) := by linarith
      exact_mod_cast hq
    · intro hx
      have hq : (len : ℚ) < 2 * (wc : ℚ) := by exact_mod_cast hx
      linarith
  · rw [if_neg h]
    constructor
    · intro hx
      norm_num at hx
    · intro hx
      omega

/-! ## Claim C2 -/

/-- Counterexample to claim C2: the code has no condition (a).  This
script-literal line contains a 46-character run of non-space characters,
exceeding the `MAX_WORD_LEN = 45` ceiling the claim requires, yet it is
still promoted to `keep = true` (it has 3 recognized words out of 4 tokens
and a prose-like category distribution). -/
theorem claim_C2_counterexample :
    (mkSoupLine demoLexicon asciiMajor "" "script.String" c2text).keep = true ∧
    specLongestNonSpaceRun c2text = 46 ∧ MAX_WORD_LEN = 45 := by
  decide

/-- Claim C2 (amended): a `script.String` line is promoted to `keep = true`
exactly when (b) it has strictly more than 2 recognized word-tokens, (c) its
standard-distance score is below 0.4 (stated on the exact square:
`standard_dist² < (2/5)² = 4/25`), and (d) its word-to-token ratio exceeds
0.5.  There is no longest-run condition (a) in the code — `MAX_WORD_LEN` is
defined but unused. -/
theorem claim_C2_amended_iff (categorize : String → Option WordCategory)
    (ucd : Char → MajorCat) (parent text : String) :
    (mkSoupLine categorize ucd parent "script.String" text).keep = true ↔
      ((mkSoupLine categorize ucd parent "script.String" text).word_count > 2 ∧
       (∃ q, (mkSoupLine categorize ucd parent "script.String" text).standard_dist_sq =
          some q ∧ q < 4 / 25) ∧
       (mkSoupLine categorize ucd parent "script.String" text).word_pct > 1 / 2) := by
  by_cases ht : pyRstrip text = ""
  · simp [mkSoupLine, ht]
  · have htot : 0 < (count_categories ucd (pyRstrip text)).total := by
      rw [count_categories_total]
      have hne := data_ne_nil_of_ne_empty ht
      cases hdata : (pyRstrip text).data with
      | nil => exact absurd hdata hne
      | cons c l => simp [hdata]
    simp only [mkSoupLine, if_neg ht, if_pos rfl, reduceIte]
    rw [ite_true_false_iff]
    refine and_congr Iff.rfl (and_congr ?_ ?_)
    · simp only [Option.some.injEq]
      rw [show (∃ q, standardDistSq (count_categories ucd (pyRstrip text)) = q ∧
          q < 4 / 25) ↔
          standardDistSq (count_categories ucd (pyRstrip text)) < 4 / 25 by
        constructor
        · rintro ⟨q, rfl, hq⟩
          exact hq
        · intro hq
          exact ⟨_, rfl, hq⟩]
      exact (standardDistSq_lt_iff _ htot).symm
    · rw [SoupLine.word_pct]
      simp only []
      rw [List.length_map]
      exact (word_pct_gt_half_iff _ _
        (le_trans (List.length_filter_le _ _) (by rw [List.length_map]))).symm

/-! ## Claim C5 -/

/-- Counterexample to claim C5: elements with tag `p` (and likewise `pre`,
`code`, `span`, `br`, `hr`) receive no special `keep` treatment — a `<p>`
element whose text is empty (as emitted for every tag with children by the
tree walk) has `keep = false`, not `keep = true` as the claim requires. -/
theorem claim_C5_counterexample :
    (mkSoupElem demoLexicon asciiMajor 0 "" "p" "").keep = false ∧
    "p" ∈ ["pre", "code", "span", "br", "hr", "p"] := by
  decide

/-- The `keep` flag accumulated by the element loop is the disjunction of
the lines' flags. -/
theorem foldl_elemStep_keep :
    ∀ (lns : List SoupLine) (acc : ElemAcc),
      (lns.foldl elemStep acc).keep = (acc.keep || lns.any fun l => l.keep) := by
  intro lns
  induction lns with
  | nil => intro acc; simp
  | cons l t ih =>
    intro acc
    rw [List.foldl_cons, ih]
    rw [show (elemStep acc l).keep = (acc.keep || l.keep) from rfl]
    simp [Bool.or_assoc]

/-- Claim C5 (amended): a constructed `SoupElem` has `keep = true` exactly
when at least one of its child lines has `keep = true`.  There is no special
container-tag rule: `HTML_RULES` knows only `span → inline` and
`option → exclude`, and `pre`/`code`/`span`/`br`/`hr`/`p` elements follow
the same line-based rule as every other tag. -/
theorem claim_C5_amended_iff (categorize : String → Option WordCategory)
    (ucd : Char → MajorCat) (depth : Nat) (parent_name name text : String) :
    (mkSoupElem categorize ucd depth parent_name name text).keep = true ↔
      ∃ l ∈ (mkSoupElem categorize ucd depth parent_name name text).lines,
        l.keep = true := by
  by_cases ht : pyRstrip
      (if (split_special_tag text).1 = "" then text else (split_special_tag text).2) = ""
  · simp [mkSoupElem, ht]
  · simp only [mkSoupElem, ne_eq, ite_not, if_neg ht]
    rw [foldl_elemStep_keep]
    simp [List.any_eq_true]

/-! ## Claim C9 -/

/-- The word and token counts accumulated by the element loop are the sums
over the lines. -/
theorem foldl_elemStep_counts :
    ∀ (lns : List SoupLine) (acc : ElemAcc),
      (lns.foldl elemStep acc).word_count =
        acc.word_count + (lns.map SoupLine.word_count).sum ∧
      (lns.foldl elemStep acc).token_count =
        acc.token_count + (lns.map fun l => l.tokens.length).sum := by
  intro lns
  induction lns with
  | nil => intro acc; simp
  | cons l t ih =>
    intro acc
    rw [List.foldl_cons]
    obtain ⟨ihw, iht⟩ := ih (elemStep acc l)
    rw [ihw, iht]
    rw [show (elemStep acc l).word_count = acc.word_count + l.word_count from rfl]
    rw [show (elemStep acc l).token_count = acc.token_count + l.tokens.length from rfl]
    simp [List.map_cons, List.sum_cons]
    constructor <;> omega

/-- Claim C9: for every constructed `SoupElem`, the aggregate `word_count`
equals the sum of the child lines' `word_count`s, and the aggregate
`token_count` equals the sum of the child lines' token-list lengths. -/
theorem claim_C9_conservation (categorize : String → Option WordCategory)
    (ucd : Char → MajorCat) (depth : Nat) (parent_name name text : String) :
    (mkSoupElem categorize ucd depth parent_name name text).word_count =
      ((mkSoupElem categorize ucd depth parent_name name text).lines.map
        SoupLine.word_count).sum ∧
    (mkSoupElem categorize ucd depth parent_name name text).token_count =
      ((mkSoupElem categorize ucd depth parent_name name text).lines.map
        fun l => l.tokens.length).sum := by
  by_cases ht : pyRstrip
      (if (split_special_tag text).1 = "" then text else (split_special_tag text).2) = ""
  · simp [mkSoupElem, ht]
  · simp only [mkSoupElem, ne_eq, ite_not, if_neg ht]
    obtain ⟨hw, htk⟩ := foldl_elemStep_counts
      (((pySplitLines (pyRstrip
        (if (split_special_tag text).1 = "" then text
         else (split_special_tag text).2)))).map
        (mkSoupLine categorize ucd parent_name name)) {}
    rw [hw, htk]
    simp [ElemAcc.word_count, ElemAcc.token_count]

/-! ## Claim C6 -/

/-- Claim C6: if the tiered cache lookup yields a hit and the mode is not
"all", favicon resolution returns exactly that one cached candidate and the
fetch log is empty — no network validation call is made for it. -/
theorem claim_C6_cache_short_circuit (env : FaviconEnv)
    (fetch : String → FetchOutcome) (u : String)
    (soup : Option (Option (List HeadLink))) (inc : Option String)
    (w maxc : Nat) (r : RelLink)
    (hmode : inc ≠ some "all") (hhit : get_favicon_cache env.caches u = some r) :
    resolve_favicons env fetch u soup inc w maxc = ([r], []) := by
  have hkey : truthyStr r.cache_key = true := cache_hit_truthy _ _ _ hhit
  have hlinks : get_favicon_links env u soup inc = [r] := by
    simp only [get_favicon_links, hhit]
    rw [if_neg hmode]
  have hsort : sort_favicon_links [r] w inc = [r] := by
    simp only [sort_favicon_links]
    rw [if_pos ⟨hkey, hmode⟩]
    rfl
  unfold resolve_favicons
  rw [hlinks, hsort]
  unfold validate_top_candidates
  simp only [validateLoop, hkey, if_true, List.nil_append, List.length_cons,
    List.length_nil]
  split
  · rfl
  · rfl

/-- Witness for claim C6: a concrete override-tier hit for `example.com`
short-circuits resolution without any fetch. -/
theorem claim_C6_witness :
    resolve_favicons c6_env failFetch "http://example.com/a" none none 20 1 =
      ([mkCachedRelLink "http://cdn.example.com/icon.png" "example.com"], []) :=
  claim_C6_cache_short_circuit c6_env failFetch "http://example.com/a" none none
    20 1 (mkCachedRelLink "http://cdn.example.com/icon.png" "example.com")
    (by decide) (by decide)

/-! ## Claim C10 -/

/-- Claim C10: every candidate produced by a tiered-cache hit is constructed
with `_validated` already true, `resolved_href` equal to the cached href, and
`image_type` hard-coded to "image/png"; it satisfies `is_valid()` and a later
`validate()` call performs no fetch. -/
theorem claim_C10_cache_prevalidated (caches : CacheTiers) (u : String)
    (fetch : String → FetchOutcome) (r : RelLink)
    (h : get_favicon_cache caches u = some r) :
    r.validated = true ∧ r.resolved_href = some r.href ∧
    r.image_type = some "image/png" ∧ r.is_valid = true ∧
    RelLink.validateStep fetch r = (true, r, []) := by
  obtain ⟨fav, s, _, _, rfl⟩ := get_favicon_cache_shape caches u r h
  exact ⟨rfl, rfl, rfl, rfl, rfl⟩

/-- Witness for claim C10 at the concrete override-tier hit. -/
theorem claim_C10_witness :
    (mkCachedRelLink "http://cdn.example.com/icon.png" "example.com").validated =
      true ∧
    (mkCachedRelLink "http://cdn.example.com/icon.png" "example.com").resolved_href =
      some (mkCachedRelLink "http://cdn.example.com/icon.png" "example.com").href ∧
    (mkCachedRelLink "http://cdn.example.com/icon.png" "example.com").image_type =
      some "image/png" ∧
    (mkCachedRelLink "http://cdn.example.com/icon.png" "example.com").is_valid =
      true ∧
    RelLink.validateStep failFetch
        (mkCachedRelLink "http://cdn.example.com/icon.png" "example.com") =
      (true, mkCachedRelLink "http://cdn.example.com/icon.png" "example.com",
        []) :=
  claim_C10_cache_prevalidated c6_tiers "http://example.com/a" failFetch
    (mkCachedRelLink "http://cdn.example.com/icon.png" "example.com") (by decide)

/-! ## Claim C8 -/

/-- A list with an element failing `p` does not drop to nil under
`dropWhile p`. -/
theorem dropWhile_ne_nil_of_exists {p : Char → Bool} {l : List Char}
    (h : ∃ c ∈ l, p c = false) : l.dropWhile p ≠ [] := by
  intro hnil
  rw [List.dropWhile_eq_nil_iff] at hnil
  obtain ⟨c, hc, hpc⟩ := h
  rw [hnil c hc] at hpc
  cases hpc

/-- Stripping an all-whitespace string yields the empty string. -/
theorem pyStrip_eq_empty {s : String} (h : ∀ c ∈ s.data, isPyWs c = true) :
    pyStrip s = "" := by
  unfold pyStrip
  have h1 : s.data.dropWhile isPyWs = [] :=
    List.dropWhile_eq_nil_iff.mpr fun x hx => h x hx
  rw [h1]
  rfl

/-- Stripping a string with a non-whitespace character is non-empty. -/
theorem pyStrip_data_ne_nil {s : String} (h : ∃ c ∈ s.data, isPyWs c = false) :
    (pyStrip s).data ≠ [] := by
  show ((s.data.dropWhile isPyWs).reverse.dropWhile isPyWs).reverse ≠ []
  rw [ne_eq, List.reverse_eq_nil_iff]
  apply dropWhile_ne_nil_of_exists
  obtain ⟨c, hc, hpc⟩ := h
  have hsplit : s.data.takeWhile isPyWs ++ s.data.dropWhile isPyWs = s.data :=
    List.takeWhile_append_dropWhile _ _
  rw [← hsplit] at hc
  rcases List.mem_append.mp hc with h1 | h1
  · have := List.mem_takeWhile_imp h1
    rw [this] at hpc
    cases hpc
  · exact ⟨c, List.mem_reverse.mpr h1, hpc⟩

/-- Claim C8: `strip_quotes` hits an index fault (modelled as `none`) exactly
on inputs with no non-whitespace character; every input containing at least
one non-whitespace character returns normally. -/
theorem claim_C8_strip_quotes :
    (∀ s : String, (∀ c ∈ s.data, isPyWs c = true) → strip_quotes s = none) ∧
    (∀ s : String, (∃ c ∈ s.data, isPyWs c = false) →
      (strip_quotes s).isSome = true) := by
  constructor
  · intro s h
    unfold strip_quotes
    rw [pyStrip_eq_empty h]
  · intro s h
    unfold strip_quotes
    rcases hdata : (pyStrip s).data with _ | ⟨c, rest⟩
    · exact absurd hdata (pyStrip_data_ne_nil h)
    · simp only [hdata, Option.isSome_some]

/-- Witness for claim C8: the all-whitespace string raises, the string with
a letter returns normally. -/
theorem claim_C8_witness :
    strip_quotes "  " = none ∧ (strip_quotes " a ").isSome = true :=
  ⟨claim_C8_strip_quotes.1 "  " (by decide),
   claim_C8_strip_quotes.2 " a " (by decide)⟩

/-! ## Claim C7 -/

/-- Counterexample to claim C7: recording under a key beginning with "www."
does not strip only the *leading* "www." label — Python `str.replace`
removes every occurrence.  For the key `www.www.example.com` the claim
predicts storage under `www.example.com`; the code stores under
`example.com` instead. -/
theorem claim_C7_counterexample :
    add_favicon_to_cache (fun _ => none) "www.www.example.com"
      "http://example.com/f.png" "www.example.com" = none ∧
    add_favicon_to_cache (fun _ => none) "www.www.example.com"
      "http://example.com/f.png" "example.com" =
      some "http://example.com/f.png" := by
  decide

/-- Claim C7 (amended): recording a discovery under a key beginning with
"www." stores it under the key with *every* "www." occurrence removed (which
for a single leading label is leading-label removal); in particular
`record_discovery("www.example.com/blog", url)` followed by
`lookup("http://example.com/blog/post1")` with empty override and default
tiers returns `url` for every non-empty `url`. -/
theorem claim_C7_amended :
    (∀ (disc : String → Option String) (key url' : String),
        pyStartsWith key "www." = true →
        add_favicon_to_cache disc key url' (pyReplace key "www." "") = some url') ∧
    (∀ url' : String, url' ≠ "" →
        (get_favicon_cache
          { overrides := fun _ => none, defaults := fun _ => none,
            discovered :=
              add_favicon_to_cache (fun _ => none) "www.example.com/blog" url' }
          "http://example.com/blog/post1").map RelLink.href = some url') := by
  constructor
  · intro disc key url' h
    unfold add_favicon_to_cache
    rw [if_pos h]
    simp
  · intro url' hu
    have hpaths : searchPaths "http://example.com/blog/post1" =
        ["example.com/blog", "example.com"] := by decide
    have hstart : pyStartsWith "www.example.com/blog" "www." = true := by decide
    have hrep : pyReplace "www.example.com/blog" "www." "" = "example.com/blog" := by
      decide
    have h1 : lookupTier (fun _ => (none : Option String))
        (searchPaths "http://example.com/blog/post1") = (none : Option RelLink) := by
      rw [hpaths]
      rfl
    have happ : add_favicon_to_cache (fun _ => none) "www.example.com/blog" url'
        "example.com/blog" = some url' := by
      simp [add_favicon_to_cache, hstart, hrep]
    have h3 : lookupTier
        (add_favicon_to_cache (fun _ => none) "www.example.com/blog" url')
        (searchPaths "http://example.com/blog/post1") =
        some (mkCachedRelLink url' "example.com/blog") := by
      rw [hpaths]
      simp [lookupTier, happ, hu]
    simp only [get_favicon_cache, h1, h3]
    simp [mkCachedRelLink]

/-- Witness for the amended claim C7 at a concrete favicon URL. -/
theorem claim_C7_witness :
    add_favicon_to_cache (fun _ => none) "www.example.com/blog"
        "http://example.com/icon.png"
        (pyReplace "www.example.com/blog" "www." "") =
      some "http://example.com/icon.png" ∧
    (get_favicon_cache
      { overrides := fun _ => none, defaults := fun _ => none,
        discovered := add_favicon_to_cache (fun _ => none) "www.example.com/blog"
          "http://example.com/icon.png" }
      "http://example.com/blog/post1").map RelLink.href =
      some "http://example.com/icon.png" :=
  ⟨claim_C7_amended.1 (fun _ => none) "www.example.com/blog"
      "http://example.com/icon.png" (by decide),
   claim_C7_amended.2 "http://example.com/icon.png" (by decide)⟩

end WebTool
